import Mathlib

/-!
Shallow embedding of the perioperative AKI / surgical-procedure-classification
tool (files aki_tool.py, tool_1.py, tool_2.py).  The data-warehouse queries are
external collaborators: the embedding consumes the record lists those queries
return (lab rows, procedure events, demographics, reference tables) and models
the clinical decision logic exactly as written in the source.

Timestamps are rationals measured in days, lab values are rationals (exact real
semantics of the arithmetic the source performs), and a Python exception is
modelled as the error branch of an Except value.
-/

/-- A fetched creatinine lab row: value_as_number and unit_source_value. -/
structure Meas where
  value : ℚ
  unit : String
deriving DecidableEq, Repr

/-- A fetched lab row carrying its measurement_datetime (days). -/
structure LabRow where
  dt : ℚ
  value : ℚ
  unit : String
deriving DecidableEq, Repr

/-- gender_concept_id for sex-assigned-male (AKITool.MALE_CONCEPT_ID). -/
def MALE_CONCEPT_ID : ℕ := 45880669

/-- Unit conversion step of the normalization loop: umol/L is divided by 88.4,
the two recognized mg/dL markers pass through, anything else is discarded
(the loop's continue). -/
def convert1 (m : Meas) : Option ℚ :=
  if m.unit = "umol/L" then some (m.value / 88.4)
  else if m.unit = "mg/dL" ∨ m.unit = "258797006" then some m.value
  else none

/-- Physiologic-range filter applied after conversion: discard if the converted
value is < 0.2 or >= 25. -/
def survives (m : Meas) : Option ℚ :=
  match convert1 m with
  | none => none
  | some c => if c < 0.2 ∨ c ≥ 25 then none else some c

/-- One iteration of the normalization loop:
max_creatinine = max(max_creatinine, creatinine) for a surviving reading,
unchanged for a skipped one. -/
def survStep (acc : ℚ) (m : Meas) : ℚ :=
  match survives m with
  | none => acc
  | some c => max acc c

/-- The normalization loop: max_creatinine starts at -1.0 and is raised to the
max of every surviving converted reading. -/
def maxSurviving (ms : List Meas) : ℚ :=
  ms.foldl survStep (-1)

/-- AKITool.get_highest_preop_creatinine after the fetch: None on an empty
result set, otherwise the loop's max, None if it stayed below 0. -/
def get_highest_preop_creatinine (ms : List Meas) : Option ℚ :=
  if ms.isEmpty then none
  else if maxSurviving ms < 0 then none
  else some (maxSurviving ms)

/-- One window of AKITool.get_postop_creatinine: the SQL keeps rows with
measurement_datetime strictly after the procedure time and at most n days
after it; the loop then takes the max surviving normalized value, None if
none survived. -/
def postopMax (t0 n : ℚ) (rows : List LabRow) : Option ℚ :=
  let win := rows.filter (fun r => decide (t0 < r.dt ∧ r.dt ≤ t0 + n))
  let mx := maxSurviving (win.map (fun r => Meas.mk r.value r.unit))
  if mx < 0 then none else some mx

/-- AKITool.get_postop_creatinine: the 2-day and 7-day windows, each
independently reduced to its own maximum surviving value. -/
def get_postop_creatinine (t0 : ℚ) (rows : List LabRow) : Option ℚ × Option ℚ :=
  (postopMax t0 2 rows, postopMax t0 7 rows)

/-! ### CPT cardiac-subclass predicates (AKITool lines 515-639) -/

/-- A decimal digit character, by code point. -/
def charIsDigit (c : Char) : Bool :=
  decide (48 ≤ c.toNat ∧ c.toNat ≤ 57)

/-- Python str.isdigit for the ASCII code strings involved: nonempty and all
characters decimal digits. -/
def pyIsDigit (s : String) : Bool :=
  !s.toList.isEmpty && s.toList.all charIsDigit

/-- Python int(...) applied to an all-digit string. -/
def strToNat (s : String) : ℕ :=
  s.toList.foldl (fun a c => 10 * a + (c.toNat - 48)) 0

/-- Python evaluates n != s for an int n and a str s to True unconditionally
(an int never equals a str).  The source compares the already-int-converted
cpt_code against the string literal of 33025, so the comparison is this
constant. -/
def pyIntNeStr (_n : ℕ) (_s : String) : Bool := true

/-- AKITool.is_open_cardiac_surgical_cpt.  The first disjunct carries the
source's `cpt_code != '33025'` conjunct, an int-to-str comparison. -/
def is_open_cardiac_surgical_cpt (cpt : String) : Bool :=
  if !pyIsDigit cpt then false
  else
    let n := strToNat cpt
    (decide (33020 ≤ n ∧ n ≤ 33100) && pyIntNeStr n "33025")
    || decide (33120 ≤ n ∧ n ≤ 33130)
    || decide (33140 ≤ n ∧ n ≤ 33141)
    || decide (33300 ≤ n ∧ n ≤ 33315)
    || decide (33321 ≤ n ∧ n ≤ 33322)
    || decide (n = 33335)
    || decide (33390 ≤ n ∧ n ≤ 33417)
    || decide (33422 ≤ n ∧ n ≤ 33471)
    || decide (33474 ≤ n ∧ n ≤ 33476)
    || decide (n = 33478)
    || decide (n = 33496)
    || decide (33500 ≤ n ∧ n ≤ 33507)
    || decide (n = 33508)
    || decide (33510 ≤ n ∧ n ≤ 33516)
    || decide (33517 ≤ n ∧ n ≤ 33530)
    || decide (33533 ≤ n ∧ n ≤ 33548)
    || decide (n = 33572)
    || decide (33600 ≤ n ∧ n ≤ 33622)
    || decide (33641 ≤ n ∧ n ≤ 33697)
    || decide (33702 ≤ n ∧ n ≤ 33722)
    || decide (33724 ≤ n ∧ n ≤ 33732)
    || decide (33735 ≤ n ∧ n ≤ 33768)
    || decide (33770 ≤ n ∧ n ≤ 33783)
    || decide (33786 ≤ n ∧ n ≤ 33788)
    || decide (33800 ≤ n ∧ n ≤ 33853)
    || decide (33858 ≤ n ∧ n ≤ 33877)
    || decide (33910 ≤ n ∧ n ≤ 33926)
    || decide (33927 ≤ n ∧ n ≤ 33945)
    || decide (33975 ≤ n ∧ n ≤ 33983)

/-- AKITool.is_ep_cath_surgical_cpt. -/
def is_ep_cath_surgical_cpt (cpt : String) : Bool :=
  if !pyIsDigit cpt then false
  else
    let n := strToNat cpt
    decide (33016 ≤ n ∧ n ≤ 33019)
    || decide (33202 ≤ n ∧ n ≤ 33275)
    || decide (33285 ≤ n ∧ n ≤ 33286)
    || decide (n = 33289)
    || decide (92920 ≤ n ∧ n ≤ 92979)
    || decide (92950 ≤ n ∧ n ≤ 92985)
    || decide (n = 92998)
    || decide (93451 ≤ n ∧ n ≤ 93533)
    || decide (93600 ≤ n ∧ n ≤ 93662)

/-- AKITool.is_transcatheter_endovascular_surgical_cpt. -/
def is_transcatheter_endovascular_surgical_cpt (cpt : String) : Bool :=
  if !pyIsDigit cpt then false
  else
    let n := strToNat cpt
    decide (n = 33340)
    || decide (33361 ≤ n ∧ n ≤ 33364)
    || decide (33418 ≤ n ∧ n ≤ 33420)
    || decide (n = 33477)
    || decide (33880 ≤ n ∧ n ≤ 33891)
    || decide (33990 ≤ n ∧ n ≤ 33993)
    || decide (n = 92986)
    || decide (n = 92987)
    || decide (n = 92990)
    || decide (93580 ≤ n ∧ n ≤ 93592)

/-- AKITool.is_other_cardiac_surgical_cpt. -/
def is_other_cardiac_surgical_cpt (cpt : String) : Bool :=
  if !pyIsDigit cpt then false
  else
    let n := strToNat cpt
    decide (33016 ≤ n ∧ n ≤ 33019)
    || decide (n = 33025)
    || decide (n = 35820)
    || decide (n = 35840)
    || decide (33365 ≤ n ∧ n ≤ 33369)
    || decide (n = 33320)
    || decide (n = 33330)
    || decide (33946 ≤ n ∧ n ≤ 33959)
    || decide (33962 ≤ n ∧ n ≤ 33974)
    || decide (33984 ≤ n ∧ n ≤ 33989)
    || decide (n = 33999)

/-- AKITool.cardiac_procedure_type: the four predicates in fixed priority
order, first match wins, 0 when none matches. -/
def cardiac_procedure_type (cpt : String) : ℕ :=
  if is_open_cardiac_surgical_cpt cpt then 1
  else if is_ep_cath_surgical_cpt cpt then 2
  else if is_transcatheter_endovascular_surgical_cpt cpt then 3
  else if is_other_cardiac_surgical_cpt cpt then 4
  else 0

/-! ### eGFR calculator (AKITool.get_preop_egfr, lines 337-360) -/

/-- Source line 340: inner_factor divisor, 0.9 if is_male else 0.7. -/
def kappaOf (is_male : Bool) : ℚ :=
  if is_male then 0.9 else 0.7

/-- Source line 341: alpha_exponent, -0.302 if is_male else -0.241. -/
def alphaExpOf (is_male : Bool) : ℚ :=
  if is_male then -0.302 else -0.241

/-- Source line 342: final_multiplier, 1.0 if is_male else 1.01. -/
def finalMultiplierOf (is_male : Bool) : ℚ :=
  if is_male then 1.0 else 1.01

/-- Python round (banker's rounding, round half to even) on an exact real. -/
noncomputable def pyRound (x : ℝ) : ℤ :=
  if x - Int.floor x < 1 / 2 then Int.floor x
  else if x - Int.floor x > 1 / 2 then Int.floor x + 1
  else if Int.floor x % 2 = 0 then Int.floor x else Int.floor x + 1

/-- Final gate of get_preop_egfr: discard if egfr <= 0 or egfr >= 300,
otherwise return round(egfr).  The check is performed on the unrounded
value. -/
noncomputable def egfrGate (e : ℝ) : Option ℤ :=
  if e ≤ 0 ∨ e ≥ 300 then none else some (pyRound e)

/-- AKITool.get_preop_egfr after the fetch.  The fetched rows are the same
60-day pre-op creatinine window the baseline uses, normalized by the same
loop; age, gender_concept_id and the optional most-recent body height are
the demographics the query attaches.  Adults get CKD-EPI with the source's
constants, minors get bedside Schwartz, and the shared gate rounds or
discards the result. -/
noncomputable def get_preop_egfr (ms : List Meas) (age : ℤ)
    (genderConceptId : ℕ) (height : Option ℚ) : Option ℤ :=
  if maxSurviving ms < 0 then none
  else if 18 ≤ age then
    egfrGate (142
      * Real.rpow (min ((maxSurviving ms : ℝ) /
          (kappaOf (decide (genderConceptId = MALE_CONCEPT_ID)) : ℝ)) 1)
          (alphaExpOf (decide (genderConceptId = MALE_CONCEPT_ID)) : ℝ)
      * Real.rpow (max ((maxSurviving ms : ℝ) /
          (kappaOf (decide (genderConceptId = MALE_CONCEPT_ID)) : ℝ)) 1)
          (-1.2 : ℝ)
      * (0.9938 : ℝ) ^ age
      * (finalMultiplierOf (decide (genderConceptId = MALE_CONCEPT_ID)) : ℝ))
  else
    match height with
    | none => none
    | some h => egfrGate ((0.413 : ℝ) * (h : ℝ) / (maxSurviving ms : ℝ))

/-! ### Close-surgery detector
(AKITool.has_close_surgery_without_creatinine_between_surgeries, lines
409-499).  The fetches supply the patient's creatinine measurement
datetimes and the filtered surgical history (procedure_occurrence_id,
procedure_datetime) restricted to surgical concepts and adult age. -/

/-- Insert a timestamp into a sorted duplicate-free list, skipping it when
already present; folding this models Python sorted(set(...)). -/
def insertU (x : ℚ) : List ℚ → List ℚ
  | [] => [x]
  | y :: ys =>
    if x < y then x :: y :: ys
    else if x = y then y :: ys
    else y :: insertU x ys

/-- Python sorted(set(l)): the sorted list of distinct elements of l. -/
def sortedUnique (l : List ℚ) : List ℚ :=
  l.foldr insertU []

/-- The successor mapping built from consecutive pairs of the sorted unique
timestamp list (proc_dt_to_next_proc_dt), applied to one key: the element
following the first occurrence of t. -/
def nextIn : List ℚ → ℚ → Option ℚ
  | [], _ => none
  | [_], _ => none
  | a :: b :: rest, t => if a = t then some b else nextIn (b :: rest) t

/-- Source lines 495-496: the intersection of the creatinine datetimes
strictly after the index time with those at-or-before the next surgery's
time is empty. -/
def crWindowEmpty (cr : List ℚ) (dt next : ℚ) : Bool :=
  ((cr.filter fun x => decide (dt < x)) ∩
    (cr.filter fun x => decide (x ≤ next))).isEmpty

/-- The row loop of the detector (source lines 481-499): rows whose id is not
the index procedure are skipped; for an index row, no successor or a gap of
more than 7 days returns False, an empty intervening creatinine window
returns True, and otherwise the loop continues; falling off the end returns
False. -/
def hasCloseGo (su cr : List ℚ) (pid : ℕ) : List (ℕ × ℚ) → Bool
  | [] => false
  | (id, dt) :: rest =>
    if id ≠ pid then hasCloseGo su cr pid rest
    else
      match nextIn su dt with
      | none => false
      | some next =>
        if 7 < next - dt then false
        else if crWindowEmpty cr dt next then true
        else hasCloseGo su cr pid rest

/-- AKITool.has_close_surgery_without_creatinine_between_surgeries after the
fetches: procs is the filtered surgical history, cr the patient's creatinine
datetimes. -/
def has_close_surgery_without_creatinine_between_surgeries
    (pid : ℕ) (procs : List (ℕ × ℚ)) (cr : List ℚ) : Bool :=
  hasCloseGo (sortedUnique (procs.map Prod.snd)) cr pid procs

/-- The specification's notion of the next distinct surgical timestamp: the
least timestamp in ts strictly after t. -/
def isNextSurg (ts : List ℚ) (t u : ℚ) : Prop :=
  u ∈ ts ∧ t < u ∧ ∀ v ∈ ts, t < v → u ≤ v

/-! ### AKI staging engine (AKITool.acute_kidney_injury, lines 176-209) -/

/-- Source line 184: preop_egfr_lowest is not None and preop_egfr_lowest < 15. -/
def egfrBelow15 : Option ℤ → Bool
  | none => false
  | some e => decide (e < 15)

/-- The decision procedure of acute_kidney_injury over the four resolved
sub-results, in the source's order: -3 without a baseline, -2 for a known
pre-op eGFR below 15, -1 without a 7-day post-op value, -4 for a confounding
close surgery, then the inclusive threshold ladder. -/
def akiCore (baseline : Option ℚ) (egfr : Option ℤ)
    (p2 p7 : Option ℚ) (hasClose : Bool) : ℤ :=
  match baseline with
  | none => -3
  | some b =>
    if egfrBelow15 egfr then -2
    else
      match p7 with
      | none => -1
      | some v7 =>
        if hasClose then -4
        else if v7 ≥ 3.0 * b then 3
        else if v7 ≥ 2.0 * b then 2
        else if v7 ≥ 1.5 * b then 1
        else
          match p2 with
          | some v2 => if v2 ≥ 0.3 + b then 1 else 0
          | none => 0

/-- The record sets the staging engine's four fetches return for one index
procedure: the 60-day pre-op creatinine rows (shared by the baseline and the
eGFR input), the demographics, the post-op creatinine rows with datetimes,
the patient's creatinine datetimes and the filtered surgical history. -/
structure ProcData where
  procId : ℕ
  procTime : ℚ
  preopMs : List Meas
  age : ℤ
  genderConceptId : ℕ
  height : Option ℚ
  postopRows : List LabRow
  crDts : List ℚ
  surgProcs : List (ℕ × ℚ)

/-- AKITool.acute_kidney_injury: each sub-result pulled from the procedure's
records, then the staged decision. -/
noncomputable def acute_kidney_injury (d : ProcData) : ℤ :=
  akiCore (get_highest_preop_creatinine d.preopMs)
    (get_preop_egfr d.preopMs d.age d.genderConceptId d.height)
    (get_postop_creatinine d.procTime d.postopRows).1
    (get_postop_creatinine d.procTime d.postopRows).2
    (has_close_surgery_without_creatinine_between_surgeries
      d.procId d.surgProcs d.crDts)

/-! ### Procedure code classifier
(AKITool.classify_surgical_procedure and is_cardiac_procedure, lines
131-174 and 501-513).  A raised Python exception is the error branch. -/

/-- The two covered billing-code vocabularies. -/
inductive CodeType where
  | CPT4
  | ICD10PCS
deriving DecidableEq, Repr

/-- The reference tables the constructor builds from the static inputs,
as association lists keyed like the source's dicts. -/
structure Tables where
  icd10_code_to_category : List (String × String)
  cardiac_icd10_code_to_category_code : List (String × ℕ)
  ccs_num_label_to_text : List (ℕ × String)
  cpt_to_ccs : List (String × ℕ)

/-- The CategoryResult namedtuple. -/
structure CategoryResult where
  code_type : String
  code : String
  is_cardiac : Bool
  cardiac_subclass : Option String
  procedural_category : Option String
deriving DecidableEq, Repr

/-- AKITool.CARDIAC_SUBCLASS_CODE_TO_NAME as the source's dict. -/
def CARDIAC_SUBCLASS_CODE_TO_NAME : List (ℕ × String) :=
  [(1, "Open"), (2, "EP/Cath"), (3, "Transcatheter/Endovascular"), (4, "Other")]

/-- AKITool.is_cardiac_procedure: the ICD10PCS arm indexes
icd10_code_to_category directly, so an absent code raises KeyError; the
CPT4 arm asks for a nonzero cardiac subclass. -/
def is_cardiac_procedure (tbl : Tables) (ct : CodeType) (code : String) :
    Except String Bool :=
  match ct with
  | CodeType.ICD10PCS =>
    match tbl.icd10_code_to_category.lookup code with
    | none => Except.error "KeyError"
    | some cat =>
      Except.ok (decide (cat = "CARD" ∨ cat = "CBGB" ∨ cat = "CBGC"
        ∨ cat = "HTP" ∨ cat = "PACE"))
  | CodeType.CPT4 => Except.ok (decide (0 < cardiac_procedure_type code))

/-- AKITool.classify_surgical_procedure after the procedure-code fetch:
None for a missing or uncovered code, otherwise the cardiac flag, the
cardiac subclass name for cardiac codes (ICD10PCS subclass lookup defaults
to 4) and the procedural category (CCS text with its unmapped default for
CPT4, the direct category-table lookup for ICD10PCS). -/
def classify_surgical_procedure (tbl : Tables)
    (fetched : Option (String × String)) :
    Except String (Option CategoryResult) :=
  match fetched with
  | none => Except.ok none
  | some (ctStr, code) =>
    if ctStr ≠ "CPT4" ∧ ctStr ≠ "ICD10PCS" then Except.ok none
    else
      let ct := if ctStr = "CPT4" then CodeType.CPT4 else CodeType.ICD10PCS
      match is_cardiac_procedure tbl ct code with
      | Except.error e => Except.error e
      | Except.ok isCard =>
        let sub :
            Except String (Option String) :=
          if isCard then
            let sc :=
              match ct with
              | CodeType.CPT4 => cardiac_procedure_type code
              | CodeType.ICD10PCS =>
                (tbl.cardiac_icd10_code_to_category_code.lookup code).getD 4
            match CARDIAC_SUBCLASS_CODE_TO_NAME.lookup sc with
            | none => Except.error "KeyError"
            | some nm => Except.ok (some nm)
          else Except.ok none
        match sub with
        | Except.error e => Except.error e
        | Except.ok subclass =>
          let cat : Except String (Option String) :=
            match ct with
            | CodeType.CPT4 =>
              Except.ok (some
                (match tbl.cpt_to_ccs.lookup code with
                 | none => "Does not map to any procedure in range"
                 | some lbl =>
                   (tbl.ccs_num_label_to_text.lookup lbl).getD
                     "Does not map to any procedure in range"))
            | CodeType.ICD10PCS =>
              match tbl.icd10_code_to_category.lookup code with
              | none => Except.error "KeyError"
              | some c => Except.ok (some c)
          match cat with
          | Except.error e => Except.error e
          | Except.ok category =>
            Except.ok (some ⟨ctStr, code, isCard, subclass, category⟩)

/-! ### CPT range expansion (AKITool constructor, lines 44-67) -/

/-- An uppercase A-Z character, matching the source's regular expressions. -/
def isUpperAZ (c : Char) : Bool :=
  decide ('A' ≤ c ∧ c ≤ 'Z')

/-- An ASCII whitespace character, as stripped by Python str.strip() and
therefore by int() before parsing (space, tab, newline, vertical tab, form
feed, carriage return). -/
def isPySpace (c : Char) : Bool :=
  decide (c.toNat = 32 ∨ (9 ≤ c.toNat ∧ c.toNat ≤ 13))

/-- Strip leading and trailing whitespace, as Python int() does to its
string argument. -/
def stripPySpace (l : List Char) : List Char :=
  ((l.dropWhile isPySpace).reverse.dropWhile isPySpace).reverse

/-- The tail of Python's integer-literal digit grammar after a first digit:
each underscore must be followed by a digit (no trailing or doubled
underscores), and every other character must be a digit. -/
def digitsUndAux : List Char → Bool
  | [] => true
  | '_' :: c :: rest => charIsDigit c && digitsUndAux rest
  | ['_'] => false
  | c :: rest => charIsDigit c && digitsUndAux rest

/-- Python's digit-run grammar for int(): a nonempty run of digits in which
single underscores may appear between digits but not lead, trail or
repeat. -/
def pyDigits (l : List Char) : Bool :=
  match l with
  | [] => false
  | c :: rest => charIsDigit c && digitsUndAux rest

/-- The numeric value of a digit run, ignoring underscore group
separators. -/
def digitsVal (l : List Char) : ℕ :=
  (l.filter fun c => decide (c ≠ '_')).foldl (fun a c => 10 * a + (c.toNat - 48)) 0

/-- Python int(...) on a slice of a code string: surrounding whitespace is
stripped, an optional leading sign is accepted, and the remainder must be a
nonempty run of ASCII digits with single underscores allowed between
digits; anything else raises ValueError.  (The code strings these slices
come from are ASCII, so the Unicode digit and whitespace classes are not
modelled.) -/
def pyInt (l : List Char) : Option ℤ :=
  match stripPySpace l with
  | '+' :: rest => if pyDigits rest then some (digitsVal rest : ℤ) else none
  | '-' :: rest => if pyDigits rest then some (-(digitsVal rest : ℤ)) else none
  | rest => if pyDigits rest then some (digitsVal rest : ℤ) else none

/-- Python format spec 0{w}d applied to an int: the decimal representation
left-padded with zeros to total width w, the sign of a negative number
counting toward the width and preceding the padding. -/
def pyPad0d (n : ℤ) (w : ℕ) : String :=
  if n < 0 then
    let s := toString (-n).toNat
    if s.length + 1 < w then
      "-" ++ String.mk (List.replicate (w - 1 - s.length) '0') ++ s
    else "-" ++ s
  else
    let s := toString n.toNat
    if s.length < w then String.mk (List.replicate (w - s.length) '0') ++ s
    else s

/-- code_num_start_idx: 1 when code_from starts with an uppercase letter. -/
def startIdxOf (f : List Char) : ℕ :=
  match f with
  | c :: _ => if isUpperAZ c then 1 else 0
  | [] => 0

/-- code_num_end_idx: len(code_from) - 1 when code_from ends with an
uppercase letter. -/
def endIdxOf (f : List Char) : ℕ :=
  match f.getLast? with
  | some c => if isUpperAZ c then f.length - 1 else f.length
  | none => 0

/-- The numeric-body slice s[code_num_start_idx:code_num_end_idx], where both
indices come from code_from even when s is code_to. -/
def numBody (f s : List Char) : List Char :=
  (s.drop (startIdxOf f)).take (endIdxOf f - startIdxOf f)

/-- One row of the constructor's range-expansion loop: strip code_from's
alpha markers, parse both sliced numeric bodies, enumerate the inclusive
range and rebuild each code string with code_from's markers and zero-padded
width; a failed int(...) parse is the raised configuration error. -/
def expandRow (f t : List Char) : Option (List String) :=
  let startAlpha : List Char :=
    match f with
    | c :: _ => if isUpperAZ c then [c] else []
    | [] => []
  let endAlpha : List Char :=
    match f.getLast? with
    | some c => if isUpperAZ c then [c] else []
    | none => []
  let w := endIdxOf f - startIdxOf f
  match pyInt (numBody f f), pyInt (numBody f t) with
  | some a, some b =>
    some (((List.range (b + 1 - a).toNat).map fun k => a + (k : ℤ)).map fun n =>
      String.mk startAlpha ++ pyPad0d n w ++ String.mk endAlpha)
  | _, _ => none

/-! ### Claim C1 -/

/-- C1: the claim reads code 33025 as excluded from the Open range and
classified Other (subclass 4).  The source's exclusion compares the
int-converted code against the string literal of 33025, which is always
unequal in Python, so the Open predicate does match 33025, the Other
predicate also lists it, and cardiac_procedure_type returns 1 (Open), not
4. -/
theorem open_cpt_exclusion_of_33025_never_fires :
    is_open_cardiac_surgical_cpt "33025" = true ∧
    is_other_cardiac_surgical_cpt "33025" = true ∧
    cardiac_procedure_type "33025" = 1 := by
  decide

/-! ### Claim C5 -/

/-- C5 counterexample: the CKD-EPI constants the adult branch selects are not
the claimed ones, because the female final multiplier in the source is 1.01,
not 1.012. -/
theorem ckdepi_claimed_constants_false :
    ¬ (kappaOf true = 0.9 ∧ alphaExpOf true = -0.302
      ∧ finalMultiplierOf true = 1.0
      ∧ kappaOf false = 0.7 ∧ alphaExpOf false = -0.241
      ∧ finalMultiplierOf false = 1.012) := by
  intro h
  have h6 := h.2.2.2.2.2
  norm_num [finalMultiplierOf] at h6

/-- C5 amended: for every adult input whose pre-op window normalizes to a
value, the eGFR computation is exactly the CKD-EPI expression with kappa
0.9, alpha -0.302 and multiplier 1.0 for the sex-assigned-male flag and
kappa 0.7, alpha -0.241 and multiplier 1.01 otherwise. -/
theorem ckdepi_constants_of_source (ms : List Meas) (age : ℤ)
    (g : ℕ) (ht : Option ℚ) (hage : 18 ≤ age) (hmx : 0 ≤ maxSurviving ms) :
    get_preop_egfr ms age g ht =
      egfrGate (142
        * Real.rpow
            (min ((maxSurviving ms : ℝ) /
              (if g = MALE_CONCEPT_ID then (0.9 : ℝ) else 0.7)) 1)
            (if g = MALE_CONCEPT_ID then (-0.302 : ℝ) else -0.241)
        * Real.rpow
            (max ((maxSurviving ms : ℝ) /
              (if g = MALE_CONCEPT_ID then (0.9 : ℝ) else 0.7)) 1)
            (-1.2 : ℝ)
        * (0.9938 : ℝ) ^ age
        * (if g = MALE_CONCEPT_ID then (1.0 : ℝ) else 1.01)) := by
  rw [get_preop_egfr.eq_def]
  rw [if_neg (not_lt.mpr hmx), if_pos hage]
  by_cases hg : g = MALE_CONCEPT_ID
  · have hd : decide (g = MALE_CONCEPT_ID) = true := by simp [hg]
    rw [hd]
    simp only [if_pos hg]
    congr 1
    rw [show kappaOf true = 0.9 from rfl, show alphaExpOf true = -0.302 from rfl,
      show finalMultiplierOf true = 1.0 from rfl]
    push_cast
    norm_num
  · have hd : decide (g = MALE_CONCEPT_ID) = false := by simp [hg]
    rw [hd]
    simp only [if_neg hg]
    congr 1
    rw [show kappaOf false = 0.7 from rfl, show alphaExpOf false = -0.241 from rfl,
      show finalMultiplierOf false = 1.01 from rfl]
    push_cast
    norm_num

/-- C5 witness: the amended constants theorem applied to a concrete adult
male input. -/
theorem ckdepi_constants_of_source_witness :
    get_preop_egfr [⟨0.9, "mg/dL"⟩] 40 MALE_CONCEPT_ID none =
      egfrGate (142
        * Real.rpow
            (min ((maxSurviving [⟨0.9, "mg/dL"⟩] : ℝ) /
              (if MALE_CONCEPT_ID = MALE_CONCEPT_ID then (0.9 : ℝ) else 0.7)) 1)
            (if MALE_CONCEPT_ID = MALE_CONCEPT_ID then (-0.302 : ℝ) else -0.241)
        * Real.rpow
            (max ((maxSurviving [⟨0.9, "mg/dL"⟩] : ℝ) /
              (if MALE_CONCEPT_ID = MALE_CONCEPT_ID then (0.9 : ℝ) else 0.7)) 1)
            (-1.2 : ℝ)
        * (0.9938 : ℝ) ^ (40 : ℤ)
        * (if MALE_CONCEPT_ID = MALE_CONCEPT_ID then (1.0 : ℝ) else 1.01)) :=
  ckdepi_constants_of_source [⟨0.9, "mg/dL"⟩] 40 MALE_CONCEPT_ID none
    (by norm_num) (by simp [maxSurviving, survStep, survives, convert1]; norm_num)

/-! ### Claim C6 -/

/-- C6 counterexample: a range row whose endpoints have inconsistent
numeric-body widths does not fail: the to-endpoint is silently sliced at the
from-endpoint's width, so the row 1-23 expands to the two codes 1 and 2
without any configuration error. -/
theorem range_expansion_accepts_width_mismatch :
    "1".toList.length ≠ "23".toList.length ∧
    expandRow "1".toList "23".toList = some ["1", "2"] := by
  constructor
  · decide
  · rfl

/-- C6 amended: range expansion does not fail on inconsistent numeric-body
widths (the to-endpoint is silently sliced at the from-endpoint's width);
it fails with a configuration error exactly when Python int() rejects the
numeric-body slice of either endpoint (both slices positioned by the
from-endpoint's alphabetic markers), i.e. when a slice, after whitespace
stripping and an optional sign, is not a nonempty underscore-grouped digit
run. -/
theorem range_expansion_failure_iff (f t : List Char) :
    expandRow f t = none ↔
      (pyInt (numBody f f) = none ∨ pyInt (numBody f t) = none) := by
  rw [expandRow.eq_def]
  cases hf : pyInt (numBody f f) <;> cases ht : pyInt (numBody f t) <;>
    simp [hf, ht]

/-- C6 witness: the failure characterization applied in both directions: the
row 100-93A raises because its to-endpoint slice contains a letter, while
the row with endpoints bearing surrounding spaces (as in 33020 - 33100)
parses under Python int() and expands without error. -/
theorem range_expansion_failure_iff_witness :
    expandRow "100".toList "93A".toList = none
    ∧ expandRow "33020 ".toList " 33100".toList ≠ none :=
  ⟨(range_expansion_failure_iff "100".toList "93A".toList).mpr
    (Or.inr (by decide)),
   fun h =>
    absurd ((range_expansion_failure_iff "33020 ".toList " 33100".toList).mp h)
      (by decide)⟩

/-! ### Claim C8 -/

/-- C8: an ICD10PCS procedure whose code is absent from the code-to-category
table makes classify_surgical_procedure raise (the direct dictionary index
inside is_cardiac_procedure), instead of returning any result. -/
theorem icd10_absent_code_raises (tbl : Tables) (code : String)
    (h : tbl.icd10_code_to_category.lookup code = none) :
    classify_surgical_procedure tbl (some ("ICD10PCS", code)) =
      Except.error "KeyError" := by
  rw [classify_surgical_procedure.eq_def]
  simp only [is_cardiac_procedure, h]
  rw [if_neg (by simp), if_neg (by decide : ¬ ("ICD10PCS" : String) = "CPT4")]

/-- C8 witness: the empty category table with a concrete code. -/
theorem icd10_absent_code_raises_witness :
    classify_surgical_procedure ⟨[], [], [], []⟩ (some ("ICD10PCS", "X")) =
      Except.error "KeyError" :=
  icd10_absent_code_raises ⟨[], [], [], []⟩ "X" rfl

/-! ### Shared lemmas about the normalization loop -/

theorem survStep_le_self (a : ℚ) (m : Meas) : a ≤ survStep a m := by
  rw [survStep]
  cases survives m with
  | none => exact le_refl a
  | some c => exact le_max_left a c

theorem survStep_mono {a b : ℚ} (m : Meas) (h : a ≤ b) :
    survStep a m ≤ survStep b m := by
  rw [survStep, survStep]
  cases survives m with
  | none => exact h
  | some c => exact max_le_max h (le_refl c)

theorem foldl_survStep_mono {l l' : List Meas} (h : l.Sublist l') :
    ∀ {a b : ℚ}, a ≤ b → l.foldl survStep a ≤ l'.foldl survStep b := by
  induction h with
  | slnil => intro a b hab; exact hab
  | cons m _ ih =>
    intro a b hab
    exact ih (le_trans hab (survStep_le_self b m))
  | cons₂ m _ ih =>
    intro a b hab
    exact ih (survStep_mono m hab)

theorem maxSurviving_le_of_sublist {l l' : List Meas} (h : l.Sublist l') :
    maxSurviving l ≤ maxSurviving l' :=
  foldl_survStep_mono h (le_refl (-1 : ℚ))

theorem get_highest_nonneg {ms : List Meas} {b : ℚ}
    (h : get_highest_preop_creatinine ms = some b) : 0 ≤ b := by
  rw [get_highest_preop_creatinine] at h
  by_cases he : ms.isEmpty
  · simp [he] at h
  · by_cases hneg : maxSurviving ms < 0
    · simp [he, hneg] at h
    · simp [he, hneg] at h
      rw [← h]
      exact not_lt.mp hneg

/-! ### Claim C9 -/

/-- C9: the post-op resolver's windows are consistent: a 2-day peak forces a
7-day peak, and the 2-day peak never exceeds the 7-day peak, because the
2-day window's rows are a sublist of the 7-day window's and both windows
take the maximum surviving normalized value. -/
theorem postopMax_eq_none {t0 n : ℚ} {rows : List LabRow}
    (h : maxSurviving ((rows.filter fun r =>
      decide (t0 < r.dt ∧ r.dt ≤ t0 + n)).map (fun r => Meas.mk r.value r.unit)) < 0) :
    postopMax t0 n rows = none :=
  if_pos h

theorem postopMax_eq_some {t0 n : ℚ} {rows : List LabRow}
    (h : ¬ maxSurviving ((rows.filter fun r =>
      decide (t0 < r.dt ∧ r.dt ≤ t0 + n)).map (fun r => Meas.mk r.value r.unit)) < 0) :
    postopMax t0 n rows = some (maxSurviving ((rows.filter fun r =>
      decide (t0 < r.dt ∧ r.dt ≤ t0 + n)).map (fun r => Meas.mk r.value r.unit))) :=
  if_neg h

theorem postop_windows_consistent (t0 : ℚ) (rows : List LabRow) (v2 : ℚ)
    (h : (get_postop_creatinine t0 rows).1 = some v2) :
    ∃ v7, (get_postop_creatinine t0 rows).2 = some v7 ∧ v2 ≤ v7 := by
  have hsub : ((rows.filter fun r => decide (t0 < r.dt ∧ r.dt ≤ t0 + 2)).map
      (fun r => Meas.mk r.value r.unit)).Sublist
      ((rows.filter fun r => decide (t0 < r.dt ∧ r.dt ≤ t0 + 7)).map
      (fun r => Meas.mk r.value r.unit)) := by
    apply List.Sublist.map
    apply List.monotone_filter_right
    intro r hr
    simp only [decide_eq_true_eq] at hr ⊢
    exact ⟨hr.1, by linarith [hr.2]⟩
  have hmono := maxSurviving_le_of_sublist hsub
  have h2d : postopMax t0 2 rows = some v2 := h
  by_cases h2 : maxSurviving ((rows.filter fun r =>
      decide (t0 < r.dt ∧ r.dt ≤ t0 + 2)).map (fun r => Meas.mk r.value r.unit)) < 0
  · rw [postopMax_eq_none h2] at h2d
    cases h2d
  · rw [postopMax_eq_some h2] at h2d
    have h7 : ¬ maxSurviving ((rows.filter fun r =>
        decide (t0 < r.dt ∧ r.dt ≤ t0 + 7)).map (fun r => Meas.mk r.value r.unit)) < 0 :=
      fun hc => h2 (lt_of_le_of_lt hmono hc)
    refine ⟨maxSurviving ((rows.filter fun r =>
      decide (t0 < r.dt ∧ r.dt ≤ t0 + 7)).map (fun r => Meas.mk r.value r.unit)), ?_, ?_⟩
    · show postopMax t0 7 rows = _
      exact postopMax_eq_some h7
    · rw [← Option.some.inj h2d]
      exact hmono

/-- C9 witness: the consistency theorem applied to a single post-op reading
one day after the procedure. -/
theorem postop_windows_consistent_witness :
    ∃ v7, (get_postop_creatinine 0 [⟨1, 1, "mg/dL"⟩]).2 = some v7 ∧ 1 ≤ v7 :=
  postop_windows_consistent 0 [⟨1, 1, "mg/dL"⟩] 1
    (by simp [get_postop_creatinine, postopMax, maxSurviving, survStep,
      survives, convert1]; norm_num)

/-! ### Claim C2 -/

theorem egfrBelow15_false {ms : List Meas} {age : ℤ} {g : ℕ} {ht : Option ℚ}
    (h : ∀ e, get_preop_egfr ms age g ht = some e → ¬ e < 15) :
    egfrBelow15 (get_preop_egfr ms age g ht) = false := by
  cases he : get_preop_egfr ms age g ht with
  | none => rfl
  | some e =>
    rw [egfrBelow15]
    exact decide_eq_false (h e he)

theorem akiCore_stage3 {b v7 : ℚ} {eg : Option ℤ} {p2 : Option ℚ}
    (hE : egfrBelow15 eg = false) (h3 : v7 ≥ 3.0 * b) :
    akiCore (some b) eg p2 (some v7) false = 3 := by
  rw [akiCore.eq_def]
  simp [hE, h3]

theorem akiCore_stage1_via_2day {b v7 v2 : ℚ} {eg : Option ℤ}
    (hE : egfrBelow15 eg = false) (h3 : ¬ v7 ≥ 3.0 * b) (h2 : ¬ v7 ≥ 2.0 * b)
    (h15 : ¬ v7 ≥ 1.5 * b) (hv2 : v2 ≥ 0.3 + b) :
    akiCore (some b) eg (some v2) (some v7) false = 1 := by
  rw [akiCore.eq_def]
  simp [hE, h3, h2, h15, hv2]

/-- C2: the staging thresholds are inclusive.  When no sentinel step fires,
a 7-day post-op peak exactly equal to 3.0 times the baseline returns stage
3 (not 2), and a 7-day peak below 1.5 times the baseline together with a
2-day peak exactly equal to baseline + 0.3 returns stage 1 (not 0). -/
theorem staging_thresholds_inclusive :
    (∀ (d : ProcData) (b : ℚ),
      get_highest_preop_creatinine d.preopMs = some b →
      (∀ e, get_preop_egfr d.preopMs d.age d.genderConceptId d.height = some e →
        ¬ e < 15) →
      has_close_surgery_without_creatinine_between_surgeries
        d.procId d.surgProcs d.crDts = false →
      (get_postop_creatinine d.procTime d.postopRows).2 = some (3.0 * b) →
      acute_kidney_injury d = 3)
    ∧ (∀ (d : ProcData) (b v7 : ℚ),
      get_highest_preop_creatinine d.preopMs = some b →
      (∀ e, get_preop_egfr d.preopMs d.age d.genderConceptId d.height = some e →
        ¬ e < 15) →
      has_close_surgery_without_creatinine_between_surgeries
        d.procId d.surgProcs d.crDts = false →
      (get_postop_creatinine d.procTime d.postopRows).2 = some v7 →
      v7 < 1.5 * b →
      (get_postop_creatinine d.procTime d.postopRows).1 = some (b + 0.3) →
      acute_kidney_injury d = 1) := by
  constructor
  · intro d b h1 h2 hcl hp7
    rw [acute_kidney_injury, h1, hp7, hcl]
    exact akiCore_stage3 (egfrBelow15_false h2) (le_refl (3.0 * b))
  · intro d b v7 h1 h2 hcl hp7 hlt hp2
    have hb : 0 ≤ b := get_highest_nonneg h1
    rw [acute_kidney_injury, h1, hp7, hp2, hcl]
    refine akiCore_stage1_via_2day (egfrBelow15_false h2)
      (not_le.mpr ?_) (not_le.mpr ?_) (not_le.mpr ?_) (le_of_eq ?_)
    · show v7 < 3.0 * b
      have h30 : (1.5 : ℚ) * b ≤ 3.0 * b := by nlinarith
      linarith
    · show v7 < 2.0 * b
      have h20 : (1.5 : ℚ) * b ≤ 2.0 * b := by nlinarith
      linarith
    · exact hlt
    · ring

/-- C2 witness: both boundary inputs evaluated concretely through the staging
engine: a pediatric record without height (so the eGFR step is skipped), an
empty surgical history, baseline 1.0, and post-op peaks 3.0 and 1.3. -/
theorem staging_thresholds_inclusive_witness :
    acute_kidney_injury ⟨1, 0, [⟨1, "mg/dL"⟩], 10, 0, none, [⟨1, 3, "mg/dL"⟩], [], []⟩ = 3
    ∧ acute_kidney_injury ⟨1, 0, [⟨1, "mg/dL"⟩], 10, 0, none,
        [⟨1, 1.3, "mg/dL"⟩], [], []⟩ = 1 := by
  have hbase : get_highest_preop_creatinine [⟨1, "mg/dL"⟩] = some 1 := by
    simp [get_highest_preop_creatinine, maxSurviving, survStep, survives, convert1]
    norm_num
  have hegfr : get_preop_egfr [⟨1, "mg/dL"⟩] 10 0 none = none := by
    rw [get_preop_egfr.eq_def]
    have hmx : ¬ maxSurviving [⟨1, "mg/dL"⟩] < 0 := by
      simp [maxSurviving, survStep, survives, convert1]
      norm_num
    simp [hmx]
  constructor
  · refine staging_thresholds_inclusive.1 _ 1 hbase ?_ rfl ?_
    · intro e he
      rw [hegfr] at he
      cases he
    · show postopMax 0 7 [⟨1, 3, "mg/dL"⟩] = some (3.0 * 1)
      simp [postopMax, maxSurviving, survStep, survives, convert1]
      norm_num
  · refine staging_thresholds_inclusive.2 _ 1 1.3 hbase ?_ rfl ?_ (by norm_num) ?_
    · intro e he
      rw [hegfr] at he
      cases he
    · show postopMax 0 7 [⟨1, 1.3, "mg/dL"⟩] = some 1.3
      simp [postopMax, maxSurviving, survStep, survives, convert1]
      norm_num
    · show postopMax 0 2 [⟨1, 1.3, "mg/dL"⟩] = some (1 + 0.3)
      simp [postopMax, maxSurviving, survStep, survives, convert1]
      norm_num

/-! ### Claim C10 -/

theorem hasCloseGo_false_of_absent (su cr : List ℚ) (pid : ℕ) :
    ∀ l : List (ℕ × ℚ), (∀ p ∈ l, p.1 ≠ pid) → hasCloseGo su cr pid l = false := by
  intro l
  induction l with
  | nil => intro _; rfl
  | cons hd tl ih =>
    intro h
    obtain ⟨id, dt⟩ := hd
    rw [hasCloseGo]
    rw [if_pos (h (id, dt) (List.mem_cons_self _ _))]
    exact ih fun p hp => h p (List.mem_cons_of_mem _ hp)

theorem akiCore_ne_confounded (b : Option ℚ) (e : Option ℤ) (p2 p7 : Option ℚ) :
    akiCore b e p2 p7 false ≠ -4 := by
  rw [akiCore.eq_def]
  cases b with
  | none => norm_num
  | some bv =>
    cases he : egfrBelow15 e with
    | true => simp
    | false =>
      simp only [Bool.false_eq_true, if_false]
      cases p7 with
      | none => norm_num
      | some v7 =>
        simp only [Bool.false_eq_true, if_false]
        split_ifs with h3 h2 h1
        · norm_num
        · norm_num
        · norm_num
        · cases p2 with
          | none => norm_num
          | some v2 =>
            show (if v2 ≥ 0.3 + bv then (1 : ℤ) else 0) ≠ -4
            split_ifs <;> norm_num

/-- C10: when the index procedure is absent from the filtered surgical
history (for example an under-18 patient or a non-surgical concept), the
close-surgery detector returns false, so the staging engine never returns
the Confounded sentinel -4 and proceeds to the threshold comparison. -/
theorem absent_index_not_confounded (d : ProcData)
    (h : ∀ p ∈ d.surgProcs, p.1 ≠ d.procId) :
    has_close_surgery_without_creatinine_between_surgeries
      d.procId d.surgProcs d.crDts = false
    ∧ acute_kidney_injury d ≠ -4 := by
  have hf : has_close_surgery_without_creatinine_between_surgeries
      d.procId d.surgProcs d.crDts = false :=
    hasCloseGo_false_of_absent _ _ _ _ h
  refine ⟨hf, ?_⟩
  rw [acute_kidney_injury, hf]
  exact akiCore_ne_confounded _ _ _ _

/-! ### Claim C4 -/

theorem pyRound_mem (x : ℝ) : pyRound x = ⌊x⌋ ∨ pyRound x = ⌊x⌋ + 1 := by
  rw [pyRound]
  split_ifs <;> simp

theorem egfrGate_bounds {e : ℝ} {r : ℤ} (h : egfrGate e = some r) :
    0 ≤ r ∧ r ≤ 300 := by
  rw [egfrGate] at h
  by_cases hc : e ≤ 0 ∨ e ≥ 300
  · rw [if_pos hc] at h
    cases h
  · rw [if_neg hc] at h
    push_neg at hc
    have h0 : (0 : ℝ) < e := hc.1
    have h300 : e < 300 := hc.2
    have hfl0 : 0 ≤ ⌊e⌋ := Int.floor_nonneg.mpr (le_of_lt h0)
    have hfl300 : ⌊e⌋ < 300 := Int.floor_lt.mpr (by exact_mod_cast h300)
    have hr : r = pyRound e := (Option.some.inj h).symm
    rcases pyRound_mem e with hm | hm <;> rw [hr, hm] <;> omega

/-- C4 amended: a value returned by the eGFR calculation lies between 0 and
300 inclusive.  The source applies the (0, 300) plausibility check to the
unrounded eGFR and only then rounds, so the returned integer can be exactly
0 or exactly 300; out-of-range unrounded values are discarded, never
clamped. -/
theorem egfr_returned_value_bounds (ms : List Meas) (age : ℤ) (g : ℕ)
    (ht : Option ℚ) (r : ℤ) (h : get_preop_egfr ms age g ht = some r) :
    0 ≤ r ∧ r ≤ 300 := by
  rw [get_preop_egfr.eq_def] at h
  by_cases hneg : maxSurviving ms < 0
  · rw [if_pos hneg] at h
    cases h
  · rw [if_neg hneg] at h
    by_cases hage : 18 ≤ age
    · rw [if_pos hage] at h
      exact egfrGate_bounds h
    · rw [if_neg hage] at h
      cases ht with
      | none => simp at h
      | some hh =>
        have h' : egfrGate ((0.413 : ℝ) * (hh : ℝ) / (maxSurviving ms : ℝ)) = some r := h
        exact egfrGate_bounds h'

theorem maxSurviving_0413 : maxSurviving [⟨0.413, "mg/dL"⟩] = 0.413 := by
  simp [maxSurviving, survStep, survives, convert1]
  norm_num

/-- C4 counterexample: with creatinine 0.413 and height 299.7 cm, the
pediatric branch computes the unrounded eGFR 299.7, which passes the strict
range check and then rounds up, so the calculation returns exactly 300 and
the claimed strict bounds fail. -/
theorem egfr_strict_bounds_false :
    ¬ (∀ r : ℤ, get_preop_egfr [⟨0.413, "mg/dL"⟩] 10 0 (some 299.7) = some r →
      0 < r ∧ r < 300) := by
  intro hcl
  have hnn : ¬ maxSurviving [⟨0.413, "mg/dL"⟩] < 0 := by
    rw [maxSurviving_0413]; norm_num
  have heval : get_preop_egfr [⟨0.413, "mg/dL"⟩] 10 0 (some 299.7) = some 300 := by
    rw [get_preop_egfr.eq_def]
    rw [if_neg hnn, if_neg (by norm_num : ¬ (18 : ℤ) ≤ 10)]
    rw [maxSurviving_0413]
    show egfrGate ((0.413 : ℝ) * ((299.7 : ℚ) : ℝ) / ((0.413 : ℚ) : ℝ)) = some 300
    have he : (0.413 : ℝ) * ((299.7 : ℚ) : ℝ) / ((0.413 : ℚ) : ℝ) = ((299.7 : ℚ) : ℝ) := by
      push_cast
      norm_num
    rw [he, egfrGate]
    have hfl : ⌊((299.7 : ℚ) : ℝ)⌋ = 299 := by
      rw [Rat.floor_cast]
      rw [Int.floor_eq_iff]
      constructor <;> norm_num
    have hgate : ¬ (((299.7 : ℚ) : ℝ) ≤ 0 ∨ ((299.7 : ℚ) : ℝ) ≥ 300) := by
      push_cast
      norm_num
    have hlt : ¬ (((299.7 : ℚ) : ℝ) - ((299 : ℤ) : ℝ) < 1 / 2) := by
      push_cast
      norm_num
    have hgt : ((299.7 : ℚ) : ℝ) - ((299 : ℤ) : ℝ) > 1 / 2 := by
      push_cast
      norm_num
    rw [if_neg hgate, pyRound, hfl]
    rw [if_neg hlt, if_pos hgt]
    norm_num
  have := hcl 300 heval
  norm_num at this

/-- C4 witness: the bounds theorem applied to a pediatric input that rounds
to 10. -/
theorem egfr_returned_value_bounds_witness : (0 : ℤ) ≤ 10 ∧ (10 : ℤ) ≤ 300 := by
  have hnn : ¬ maxSurviving [⟨0.413, "mg/dL"⟩] < 0 := by
    rw [maxSurviving_0413]; norm_num
  have heval : get_preop_egfr [⟨0.413, "mg/dL"⟩] 10 0 (some 10) = some 10 := by
    rw [get_preop_egfr.eq_def]
    rw [if_neg hnn, if_neg (by norm_num : ¬ (18 : ℤ) ≤ 10)]
    rw [maxSurviving_0413]
    show egfrGate ((0.413 : ℝ) * ((10 : ℚ) : ℝ) / ((0.413 : ℚ) : ℝ)) = some 10
    have he : (0.413 : ℝ) * ((10 : ℚ) : ℝ) / ((0.413 : ℚ) : ℝ) = ((10 : ℚ) : ℝ) := by
      push_cast
      norm_num
    rw [he, egfrGate]
    have hfl : ⌊((10 : ℚ) : ℝ)⌋ = 10 := by
      rw [Rat.floor_cast]
      rw [Int.floor_eq_iff]
      constructor <;> norm_num
    have hgate : ¬ (((10 : ℚ) : ℝ) ≤ 0 ∨ ((10 : ℚ) : ℝ) ≥ 300) := by
      push_cast
      norm_num
    have hlt : ((10 : ℚ) : ℝ) - ((10 : ℤ) : ℝ) < 1 / 2 := by
      push_cast
      norm_num
    rw [if_neg hgate, pyRound, hfl]
    rw [if_pos hlt]
  exact egfr_returned_value_bounds [⟨0.413, "mg/dL"⟩] 10 0 (some 10) 10 heval

/-! ### Claim C7 -/

theorem maxSurviving_09 : maxSurviving [⟨0.9, "mg/dL"⟩] = 0.9 := by
  simp [maxSurviving, survStep, survives, convert1]
  norm_num

theorem egfr_40_male_eval :
    get_preop_egfr [⟨0.9, "mg/dL"⟩] 40 MALE_CONCEPT_ID none = some 111 := by
  have hnn : ¬ maxSurviving [⟨0.9, "mg/dL"⟩] < 0 := by
    rw [maxSurviving_09]; norm_num
  rw [get_preop_egfr.eq_def]
  rw [if_neg hnn, if_pos (by norm_num : (18 : ℤ) ≤ 40)]
  rw [maxSurviving_09]
  have hd : decide (MALE_CONCEPT_ID = MALE_CONCEPT_ID) = true := by simp
  rw [hd]
  rw [show kappaOf true = 0.9 from rfl, show alphaExpOf true = -0.302 from rfl,
    show finalMultiplierOf true = 1.0 from rfl]
  have hone : ((0.9 : ℚ) : ℝ) / ((0.9 : ℚ) : ℝ) = 1 := div_self (by norm_num)
  have h1p : ∀ x : ℝ, Real.rpow 1 x = 1 := fun x => Real.one_rpow x
  rw [hone, min_self, max_self, h1p, h1p]
  have he : (142 * 1 * 1 * (0.9938 : ℝ) ^ (40 : ℤ) * ((1.0 : ℚ) : ℝ))
      = ((142 * (0.9938 : ℚ) ^ (40 : ℕ) : ℚ) : ℝ) := by
    push_cast
    norm_num
  rw [he, egfrGate]
  have hfl : ⌊((142 * (0.9938 : ℚ) ^ (40 : ℕ) : ℚ) : ℝ)⌋ = 110 := by
    rw [Rat.floor_cast]
    rw [Int.floor_eq_iff]
    constructor <;> norm_num
  have hq0 : (0 : ℚ) < 142 * (0.9938 : ℚ) ^ (40 : ℕ) := by positivity
  have hq300 : 142 * (0.9938 : ℚ) ^ (40 : ℕ) < 300 := by
    nlinarith [pow_le_one₀ (by norm_num : (0 : ℚ) ≤ 0.9938)
      (by norm_num : (0.9938 : ℚ) ≤ 1) (n := 40)]
  have hgate : ¬ (((142 * (0.9938 : ℚ) ^ (40 : ℕ) : ℚ) : ℝ) ≤ 0 ∨
      ((142 * (0.9938 : ℚ) ^ (40 : ℕ) : ℚ) : ℝ) ≥ 300) := by
    push_neg
    constructor
    · exact_mod_cast hq0
    · exact_mod_cast hq300
  have hlt : ¬ (((142 * (0.9938 : ℚ) ^ (40 : ℕ) : ℚ) : ℝ) - ((110 : ℤ) : ℝ) < 1 / 2) := by
    push_cast
    norm_num
  have hgt : ((142 * (0.9938 : ℚ) ^ (40 : ℕ) : ℚ) : ℝ) - ((110 : ℤ) : ℝ) > 1 / 2 := by
    push_cast
    norm_num
  rw [if_neg hgate, pyRound, hfl]
  rw [if_neg hlt, if_pos hgt]
  norm_num

/-- C7 amended evaluation: for a 40-year-old male with creatinine exactly
0.9, the inner factor is 1.0 and both min/max branches collapse to 1.0, so
the eGFR is round(142 x 0.9938^40) = round(110.7255...) = 111, not 110. -/
theorem egfr_boundary_40_male :
    get_preop_egfr [⟨0.9, "mg/dL"⟩] 40 MALE_CONCEPT_ID none = some 111 :=
  egfr_40_male_eval

/-- C7 counterexample: the claimed returned value 110 is wrong; the source
returns 111 for this input. -/
theorem egfr_boundary_40_male_not_110 :
    ¬ (get_preop_egfr [⟨0.9, "mg/dL"⟩] 40 MALE_CONCEPT_ID none = some 110) := by
  rw [egfr_40_male_eval]
  intro hc
  cases hc

/-- C10 witness: a history holding only a different procedure id. -/
theorem absent_index_not_confounded_witness :
    has_close_surgery_without_creatinine_between_surgeries 1 [(2, 0)] [] = false
    ∧ acute_kidney_injury ⟨1, 0, [], 18, 0, none, [], [], [(2, 0)]⟩ ≠ -4 :=
  absent_index_not_confounded ⟨1, 0, [], 18, 0, none, [], [], [(2, 0)]⟩
    (by intro p hp; simp at hp; subst hp; norm_num)



/-! ### Claim C3: the close-surgery detector against its specification -/

theorem mem_insertU (x a : ℚ) (l : List ℚ) :
    a ∈ insertU x l ↔ a = x ∨ a ∈ l := by
  induction l with
  | nil => simp [insertU]
  | cons y ys ih =>
    rw [insertU]
    split_ifs with h1 h2
    · simp [List.mem_cons]
    · subst h2
      simp only [List.mem_cons]
      tauto
    · simp only [List.mem_cons, ih]
      tauto

theorem pairwise_insertU (x : ℚ) (l : List ℚ) (hl : l.Pairwise (· < ·)) :
    (insertU x l).Pairwise (· < ·) := by
  induction l with
  | nil => simp [insertU]
  | cons y ys ih =>
    rw [List.pairwise_cons] at hl
    obtain ⟨hy, hys⟩ := hl
    rw [insertU]
    split_ifs with h1 h2
    · rw [List.pairwise_cons]
      refine ⟨?_, ?_⟩
      · intro b hb
        rcases List.mem_cons.mp hb with rfl | hb'
        · exact h1
        · exact lt_trans h1 (hy b hb')
      · rw [List.pairwise_cons]
        exact ⟨hy, hys⟩
    · rw [List.pairwise_cons]
      exact ⟨hy, hys⟩
    · rw [List.pairwise_cons]
      refine ⟨?_, ih hys⟩
      intro b hb
      rcases (mem_insertU x b ys).mp hb with rfl | hb'
      · exact lt_of_le_of_ne (not_lt.mp h1) (Ne.symm h2)
      · exact hy b hb'

theorem mem_sortedUnique (a : ℚ) (l : List ℚ) :
    a ∈ sortedUnique l ↔ a ∈ l := by
  induction l with
  | nil => simp [sortedUnique]
  | cons y ys ih =>
    show a ∈ insertU y (sortedUnique ys) ↔ _
    rw [mem_insertU, ih]
    simp [List.mem_cons]

theorem pairwise_sortedUnique (l : List ℚ) :
    (sortedUnique l).Pairwise (· < ·) := by
  induction l with
  | nil => simp [sortedUnique]
  | cons y ys ih =>
    show (insertU y (sortedUnique ys)).Pairwise (· < ·)
    exact pairwise_insertU y (sortedUnique ys) ih

theorem nextIn_eq_some_iff (l : List ℚ) (hp : l.Pairwise (· < ·)) (t : ℚ)
    (ht : t ∈ l) (u : ℚ) :
    nextIn l t = some u ↔ (u ∈ l ∧ t < u ∧ ∀ v ∈ l, t < v → u ≤ v) := by
  induction l with
  | nil => simp at ht
  | cons a rest ih =>
    cases rest with
    | nil =>
      show (none : Option ℚ) = some u ↔ _
      constructor
      · intro hc
        cases hc
      · rintro ⟨hu, htu, _⟩
        simp at hu ht
        rw [hu, ht] at htu
        exact absurd htu (lt_irrefl a)
    | cons b rest' =>
      show (if a = t then some b else nextIn (b :: rest') t) = some u ↔ _
      have hp1 := (List.pairwise_cons.mp hp).1
      have hp2 : (b :: rest').Pairwise (· < ·) := (List.pairwise_cons.mp hp).2
      by_cases hat : a = t
      · rw [if_pos hat]
        subst hat
        have hab : a < b := hp1 b (by simp)
        constructor
        · intro hsome
          obtain rfl : b = u := Option.some.inj hsome
          refine ⟨by simp, hab, ?_⟩
          intro v hv hav
          rcases List.mem_cons.mp hv with hveq | hv'
          · rw [hveq] at hav
            exact absurd hav (lt_irrefl a)
          · rcases List.mem_cons.mp hv' with hveq | hv''
            · exact le_of_eq hveq.symm
            · exact le_of_lt ((List.pairwise_cons.mp hp2).1 v hv'')
        · rintro ⟨hu, hau, hmin⟩
          have hub : u ≤ b := hmin b (by simp) hab
          have hbu : b ≤ u := by
            rcases List.mem_cons.mp hu with hueq | hu'
            · rw [hueq] at hau
              exact absurd hau (lt_irrefl a)
            · rcases List.mem_cons.mp hu' with hueq | hu''
              · exact le_of_eq hueq.symm
              · exact le_of_lt ((List.pairwise_cons.mp hp2).1 u hu'')
          rw [le_antisymm hub hbu]
      · rw [if_neg hat]
        have ht' : t ∈ b :: rest' := by
          rcases List.mem_cons.mp ht with hteq | h'
          · exact absurd hteq.symm hat
          · exact h'
        have hta : a < t := hp1 t ht'
        rw [ih hp2 ht']
        constructor
        · rintro ⟨hu, htu, hmin⟩
          refine ⟨List.mem_cons_of_mem a hu, htu, ?_⟩
          intro v hv htv
          rcases List.mem_cons.mp hv with hveq | hv'
          · rw [hveq] at htv
            exact absurd (lt_trans hta htv) (lt_irrefl a)
          · exact hmin v hv' htv
        · rintro ⟨hu, htu, hmin⟩
          have hu' : u ∈ b :: rest' := by
            rcases List.mem_cons.mp hu with hueq | h'
            · rw [hueq] at htu
              exact absurd (lt_trans hta htu) (lt_irrefl a)
            · exact h'
          exact ⟨hu', htu, fun v hv htv => hmin v (List.mem_cons_of_mem a hv) htv⟩

theorem isNextSurg_unique {ts : List ℚ} {t u u' : ℚ}
    (h : isNextSurg ts t u) (h' : isNextSurg ts t u') : u = u' :=
  le_antisymm (h.2.2 u' h'.1 h'.2.1) (h'.2.2 u h.1 h.2.1)

theorem crWindowEmpty_iff (cr : List ℚ) (dt next : ℚ) :
    crWindowEmpty cr dt next = true ↔ ∀ c ∈ cr, ¬ (dt < c ∧ c ≤ next) := by
  rw [crWindowEmpty, List.isEmpty_iff, List.eq_nil_iff_forall_not_mem]
  constructor
  · intro h c hc hcond
    refine h c ?_
    rw [List.mem_inter_iff, List.mem_filter, List.mem_filter]
    exact ⟨⟨hc, by simp [hcond.1]⟩, hc, by simp [hcond.2]⟩
  · intro h x hx
    rw [List.mem_inter_iff, List.mem_filter, List.mem_filter] at hx
    obtain ⟨⟨hx1, hd1⟩, _, hd2⟩ := hx
    exact h x hx1 ⟨by simpa using hd1, by simpa using hd2⟩

theorem hasCloseGo_iff (su cr : List ℚ) (pid : ℕ) (ts : List ℚ)
    (hsu_p : su.Pairwise (· < ·)) (hsu_m : ∀ a, a ∈ su ↔ a ∈ ts)
    (l : List (ℕ × ℚ)) (hmem : ∀ p ∈ l, p.2 ∈ ts)
    (hw : ∀ p ∈ l, ∀ q ∈ l, p.1 = pid → q.1 = pid → p.2 = q.2) :
    (hasCloseGo su cr pid l = true ↔
      ∃ dt, (pid, dt) ∈ l ∧ ∃ u, isNextSurg ts dt u ∧ u - dt ≤ 7 ∧
        ∀ c ∈ cr, ¬ (dt < c ∧ c ≤ u)) := by
  induction l with
  | nil => simp [hasCloseGo]
  | cons hd tl ih =>
    obtain ⟨id, dt⟩ := hd
    have hmem' : ∀ p ∈ tl, p.2 ∈ ts := fun p hp => hmem p (List.mem_cons_of_mem _ hp)
    have hw' : ∀ p ∈ tl, ∀ q ∈ tl, p.1 = pid → q.1 = pid → p.2 = q.2 :=
      fun p hp q hq => hw p (List.mem_cons_of_mem _ hp) q (List.mem_cons_of_mem _ hq)
    have ih' := ih hmem' hw'
    rw [hasCloseGo]
    by_cases hid : id ≠ pid
    · rw [if_pos hid, ih']
      constructor
      · rintro ⟨dt0, hdt0, rest⟩
        exact ⟨dt0, List.mem_cons_of_mem _ hdt0, rest⟩
      · rintro ⟨dt0, hdt0, rest⟩
        rcases List.mem_cons.mp hdt0 with heq | hin
        · exact absurd (congrArg Prod.fst heq).symm hid
        · exact ⟨dt0, hin, rest⟩
    · push_neg at hid
      rw [if_neg (by simp [hid])]
      subst hid
      have hdt_ts : dt ∈ ts := hmem (id, dt) (List.mem_cons_self _ _)
      have hdt_su : dt ∈ su := (hsu_m dt).mpr hdt_ts
      have hwd : ∀ dt0, (id, dt0) ∈ (id, dt) :: tl → dt0 = dt :=
        fun dt0 h0 => hw (id, dt0) h0 (id, dt) (List.mem_cons_self _ _) rfl rfl
      cases hnx : nextIn su dt with
      | none =>
        constructor
        · intro hc
          cases hc
        · rintro ⟨dt0, hdt0, u, hnext, _, _⟩
          have hdd : dt0 = dt := hwd dt0 hdt0
          subst hdd
          have hsome : nextIn su dt0 = some u := by
            rw [nextIn_eq_some_iff su hsu_p dt0 hdt_su u]
            exact ⟨(hsu_m u).mpr hnext.1, hnext.2.1,
              fun v hv htv => hnext.2.2 v ((hsu_m v).mp hv) htv⟩
          rw [hnx] at hsome
          cases hsome
      | some next =>
        show (if 7 < next - dt then false
          else if crWindowEmpty cr dt next = true then true
          else hasCloseGo su cr id tl) = true ↔ _
        have hnext_s : isNextSurg ts dt next := by
          have hms := (nextIn_eq_some_iff su hsu_p dt hdt_su next).mp hnx
          exact ⟨(hsu_m next).mp hms.1, hms.2.1,
            fun v hv htv => hms.2.2 v ((hsu_m v).mpr hv) htv⟩
        by_cases hgap : 7 < next - dt
        · rw [if_pos hgap]
          constructor
          · intro hc
            cases hc
          · rintro ⟨dt0, hdt0, u, hnext, hle, _⟩
            have hdd : dt0 = dt := hwd dt0 hdt0
            subst hdd
            have hun : u = next := isNextSurg_unique hnext hnext_s
            subst hun
            linarith
        · rw [if_neg hgap]
          by_cases hwin : crWindowEmpty cr dt next = true
          · rw [if_pos hwin]
            constructor
            · intro _
              exact ⟨dt, List.mem_cons_self _ _, next, hnext_s, not_lt.mp hgap,
                (crWindowEmpty_iff cr dt next).mp hwin⟩
            · intro _
              rfl
          · rw [if_neg hwin, ih']
            constructor
            · rintro ⟨dt0, hdt0, rest⟩
              exact ⟨dt0, List.mem_cons_of_mem _ hdt0, rest⟩
            · rintro ⟨dt0, hdt0, u, hnext, hle, hemp⟩
              rcases List.mem_cons.mp hdt0 with heq | hin
              · have hdd : dt0 = dt := congrArg Prod.snd heq
                subst hdd
                have hun : u = next := isNextSurg_unique hnext hnext_s
                subst hun
                exact absurd ((crWindowEmpty_iff cr dt0 u).mpr hemp) hwin
              · exact ⟨dt0, hin, u, hnext, hle, hemp⟩

/-- C3: for a well-formed history (one timestamp per procedure id), the
close-surgery detector returns true iff the index procedure has a next
distinct surgical timestamp in the filtered history, the gap to it is at
most 7 days (exactly 7 days is still eligible; only a strictly larger gap
returns false), and no creatinine timestamp lies strictly after the index
time and at-or-before the next surgery's time. -/
theorem close_surgery_detector_spec (pid : ℕ) (procs : List (ℕ × ℚ))
    (cr : List ℚ)
    (hw : ∀ p ∈ procs, ∀ q ∈ procs, p.1 = pid → q.1 = pid → p.2 = q.2) :
    (has_close_surgery_without_creatinine_between_surgeries pid procs cr = true ↔
      ∃ dt, (pid, dt) ∈ procs ∧ ∃ u, isNextSurg (procs.map Prod.snd) dt u ∧
        u - dt ≤ 7 ∧ ∀ c ∈ cr, ¬ (dt < c ∧ c ≤ u)) := by
  rw [has_close_surgery_without_creatinine_between_surgeries]
  exact hasCloseGo_iff (sortedUnique (procs.map Prod.snd)) cr pid
    (procs.map Prod.snd) (pairwise_sortedUnique _)
    (fun a => mem_sortedUnique a _) procs
    (fun p hp => List.mem_map_of_mem Prod.snd hp) hw

/-- C3 witness: two surgeries three days apart with no creatinine draw in
between are confounding, derived through the specification side of the
equivalence. -/
theorem close_surgery_detector_spec_witness :
    has_close_surgery_without_creatinine_between_surgeries 1 [(1, 0), (2, 3)] [] = true := by
  refine (close_surgery_detector_spec 1 [(1, 0), (2, 3)] [] ?_).mpr ?_
  · intro p hp q hq h1 h2
    rcases List.mem_cons.mp hp with rfl | hp'
    · rcases List.mem_cons.mp hq with rfl | hq'
      · rfl
      · rcases List.mem_cons.mp hq' with rfl | hq''
        · norm_num at h2
        · simp at hq''
    · rcases List.mem_cons.mp hp' with rfl | hp''
      · norm_num at h1
      · simp at hp''
  · refine ⟨0, by simp, 3, ⟨by simp, by norm_num, ?_⟩, by norm_num, by simp⟩
    intro v hv htv
    simp at hv
    rcases hv with rfl | rfl
    · norm_num at htv
    · norm_num
